import Mathlib

/-!
Verification of the CSV backend of the Tauri-CSV-Reader repository.

The Rust sources under src-tauri/src are shallowly embedded: pure helper
functions become Lean functions, the file system and the Tauri path
resolver become explicit function arguments, and fallible operations
return Except values mirroring Result.
-/

namespace CsvReader

/-- Rust str.split on a single separator character, on the character list
of the string: it produces one (possibly empty) piece per gap, so a string
with n separators yields n + 1 pieces, and the empty string yields the
one-element list containing the empty piece. -/
def rustSplit (c : Char) : List Char → List (List Char)
  | [] => [[]]
  | x :: xs =>
    if x = c then [] :: rustSplit c xs
    else
      match rustSplit c xs with
      | [] => [[x]]
      | p :: ps => (x :: p) :: ps

/-- Rust str.trim: drop whitespace characters from both ends. -/
def rustTrim (l : List Char) : List Char :=
  ((l.dropWhile Char.isWhitespace).reverse.dropWhile Char.isWhitespace).reverse

/-- models.rs, deserialize_platform: split the cell text on commas, trim
each piece, collect preserving order.  Total: it never fails. -/
def deserialize_platform (s : String) : List String :=
  (rustSplit ',' s.data).map (fun piece => (rustTrim piece).asString)

theorem rustSplit_ne_nil (c : Char) (l : List Char) : rustSplit c l ≠ [] := by
  induction l with
  | nil => simp [rustSplit]
  | cons x xs ih =>
    rw [rustSplit]
    split
    · simp
    · cases h : rustSplit c xs with
      | nil => exact absurd h ih
      | cons p ps => simp

theorem rustSplit_length (c : Char) (l : List Char) :
    (rustSplit c l).length = l.count c + 1 := by
  induction l with
  | nil => simp [rustSplit]
  | cons x xs ih =>
    rw [rustSplit, List.count_cons]
    split
    · rename_i hx
      simp [hx, ih]
    · rename_i hx
      cases h : rustSplit c xs with
      | nil => exact absurd h (rustSplit_ne_nil c xs)
      | cons p ps =>
        rw [h] at ih
        simp only [List.length_cons] at ih ⊢
        have hbe : (x == c) = false := by simp [hx]
        simp only [hbe, Bool.false_eq_true, if_false]
        omega

/-- Claim C1: a multi-value cell containing N comma-separated values decodes
to exactly N strings (N = number of commas + 1), each piece trimmed of
surrounding whitespace, in the original split order; the decoder is a total
function, and the empty string decodes to the one-element sequence
containing the empty string. -/
theorem c1_multivalue_decode (s : String) :
    (deserialize_platform s).length = s.data.count ',' + 1 ∧
    (∀ i (h : i < (rustSplit ',' s.data).length),
      (deserialize_platform s).get ⟨i, by simpa [deserialize_platform] using h⟩
        = (rustTrim ((rustSplit ',' s.data).get ⟨i, h⟩)).asString) ∧
    deserialize_platform "" = [""] := by
  refine ⟨?_, ?_, ?_⟩
  · simp [deserialize_platform, rustSplit_length]
  · intro i h
    simp [deserialize_platform]
  · decide

/-- Concrete instance of claim C1: the cell "a, b ,c" decodes to three
trimmed values with "b" in the middle position. -/
theorem c1_multivalue_decode_witness :
    (deserialize_platform "a, b ,c").get ⟨1, by decide⟩
      = (rustTrim ((rustSplit ',' "a, b ,c".data).get ⟨1, by decide⟩)).asString :=
  (c1_multivalue_decode "a, b ,c").2.1 1 (by decide)

/-- The error kinds of std::io::ErrorKind that this backend distinguishes. -/
inductive ErrorKind where
  | invalidInput
  | notFound
  | invalidData
  | permissionDenied
  | other
  deriving DecidableEq, Repr

/-- std::io::Error: a kind together with the message produced by to_string. -/
structure IOError where
  kind : ErrorKind
  message : String
  deriving DecidableEq, Repr

/-- models.rs, CsvRecord: one decoded row.  level is the u8 Level value
(decodeRecord only produces values in 0..255).  The Rust field name
example is a Lean keyword, hence the trailing question mark. -/
structure CsvRecord where
  name : String
  notes : String
  url : String
  level : Nat
  example? : Option String
  platform : List String
  type : List String
  os : List String
  language : List String
  category : List String
  deriving DecidableEq, Repr

/-- A CSV file as the csv crate Reader presents it to serde: a header row
naming the columns, and the remaining rows as lists of cell strings. -/
structure CsvFile where
  header : List String
  rows : List (List String)
  deriving DecidableEq, Repr

/-- Position of a column name in the header (first match), as the csv
crate resolves header names to cells. -/
def columnIndex (column : String) : List String → Option Nat
  | [] => none
  | h :: rest => if h = column then some 0 else (columnIndex column rest).map (· + 1)

/-- The cell of a row under a named column: none when the column is absent
from the header (or the row is too short). -/
def lookupCell (header row : List String) (column : String) : Option String :=
  match columnIndex column header with
  | none => none
  | some i => row[i]?

/-- serde treatment of a required String column: missing column is a
missing-field decode error. -/
def requiredField (header row : List String) (column : String) : Except String String :=
  match lookupCell header row column with
  | none => .error ("missing field " ++ column)
  | some v => .ok v

/-- serde treatment of the five Vec fields: a missing column falls back to
the default empty list, a present cell goes through deserialize_platform. -/
def multiValueCell (header row : List String) (column : String) : List String :=
  match lookupCell header row column with
  | none => []
  | some s => deserialize_platform s

/-- csv-crate treatment of Option String: missing column or empty cell is
none. -/
def optionalCell (header row : List String) (column : String) : Option String :=
  match lookupCell header row column with
  | none => none
  | some s => if s = "" then none else some s

/-- Numeric value of a list of decimal digit characters. -/
def natFromDigits (l : List Char) : Nat :=
  l.foldl (fun acc c => 10 * acc + (c.toNat - 48)) 0

/-- Parsing a cell as u8 (Level): a non-empty string of decimal digits
whose value fits in 0..255; anything else is a decode error. -/
def parseU8 (s : String) : Except String Nat :=
  if s.data.isEmpty || !s.data.all Char.isDigit then
    .error ("invalid digit found in string: " ++ s)
  else if natFromDigits s.data ≤ 255 then
    .ok (natFromDigits s.data)
  else
    .error ("number too large to fit in target type: " ++ s)

/-- Decoding one row into a CsvRecord under the serde attributes of
models.rs: Name, Notes, URL are required strings, Level a required u8,
Example an optional string, and the five PascalCase multi-value columns
go through deserialize_platform with an empty-list default. -/
def decodeRecord (header row : List String) : Except String CsvRecord :=
  match requiredField header row "Name" with
  | .error e => .error e
  | .ok name =>
    match requiredField header row "Notes" with
    | .error e => .error e
    | .ok notes =>
      match requiredField header row "URL" with
      | .error e => .error e
      | .ok url =>
        match requiredField header row "Level" with
        | .error e => .error e
        | .ok levelStr =>
          match parseU8 levelStr with
          | .error e => .error e
          | .ok level =>
            .ok { name := name, notes := notes, url := url, level := level,
                  example? := optionalCell header row "Example",
                  platform := multiValueCell header row "Platform",
                  type := multiValueCell header row "Type",
                  os := multiValueCell header row "OS",
                  language := multiValueCell header row "Language",
                  category := multiValueCell header row "Category" }

/-- The deserialize loop of _parse_csv_file: decode the rows in order,
returning the first decode error, otherwise all records in row order. -/
def decodeRows (header : List String) : List (List String) → Except String (List CsvRecord)
  | [] => .ok []
  | row :: rest =>
    match decodeRecord header row with
    | .error e => .error e
    | .ok record =>
      match decodeRows header rest with
      | .error e => .error e
      | .ok records => .ok (record :: records)

/-- The file system seen through File::open followed by the csv Reader:
a path either opens to a CSV file or fails with an io::Error. -/
abbrev FileSystem := String → Except IOError CsvFile

/-- utils.rs, _parse_csv_file: reject the empty path with InvalidInput,
propagate the open error unchanged, and turn the first row decode error
into InvalidData carrying its detail. -/
def _parse_csv_file (fs : FileSystem) (resource_path : String) :
    Except IOError (List CsvRecord) :=
  if resource_path = "" then
    .error ⟨.invalidInput, "Resource path cannot be empty"⟩
  else
    match fs resource_path with
    | .error e => .error e
    | .ok file =>
      match decodeRows file.header file.rows with
      | .error e => .error ⟨.invalidData, e⟩
      | .ok records => .ok records

/-- PathBuf::join with the Unix separator. -/
def joinPath (dir filename : String) : String := dir ++ "/" ++ filename

/-- utils.rs, _csv_file_path: empty filename fails with InvalidInput before
the resolver is consulted; a resolver failure becomes NotFound carrying the
resolver message; otherwise join the document directory with the filename.
The Tauri resolver is passed in as the already-computed result of resolving
the document resource directory. -/
def _csv_file_path (resolveDocument : Except String String) (filename : String) :
    Except IOError String :=
  if filename = "" then
    .error ⟨.invalidInput, "Filename cannot be empty"⟩
  else
    match resolveDocument with
    | .error msg => .error ⟨.notFound, msg⟩
    | .ok dir => .ok (joinPath dir filename)

/-- utils.rs, read_csv_file: resolve the path, then parse. -/
def read_csv_file (resolveDocument : Except String String) (fs : FileSystem)
    (filename : String) : Except IOError (List CsvRecord) :=
  match _csv_file_path resolveDocument filename with
  | .error e => .error e
  | .ok path => _parse_csv_file fs path

/-- The HashSet built by read_type_set: insert every type value of every
record. -/
def typeSetOfRecords (records : List CsvRecord) : Finset String :=
  records.foldl (fun acc record => record.type.foldl (fun s t => insert t s) acc) ∅

/-- utils.rs, read_type_set: parse the file, propagate its error unchanged,
otherwise collect the distinct type values. -/
def read_type_set (resolveDocument : Except String String) (fs : FileSystem)
    (filename : String) : Except IOError (Finset String) :=
  match read_csv_file resolveDocument fs filename with
  | .error e => .error e
  | .ok records => .ok (typeSetOfRecords records)

/-- One entry yielded by read_dir iteration: the iteration step may itself
fail, and an Ok entry has a name that may not be valid UTF-8 text (none). -/
abbrev DirEntry := Except IOError (Option String)

/-- The case-insensitive comparator of folder_files: compare the
character-wise lowercase foldings codepoint-wise. -/
def lowerLe (a b : String) : Bool := decide (a.toLower ≤ b.toLower)

/-- utils.rs, folder_files: fail with the read_dir error unchanged,
otherwise keep the names of the Ok entries that are valid text, in
iteration order, and sort them with the case-insensitive comparator
(sort_by is a stable sort, modelled by mergeSort). -/
def folder_files (readDir : Except IOError (List DirEntry)) :
    Except IOError (List String) :=
  match readDir with
  | .error e => .error e
  | .ok entries =>
    let file_names := entries.filterMap (fun entry =>
      match entry with
      | .error _ => none
      | .ok none => none
      | .ok (some name) => some name)
    .ok (file_names.mergeSort lowerLe)

/-- The JSON values that appear in a serialized CsvRecord. -/
inductive JVal where
  | str (s : String)
  | num (n : Nat)
  | arrStr (elems : List String)
  deriving DecidableEq, Repr

/-- One serialized field under a skip_serializing_if guard: emitted only
when present. -/
def optField (present : Bool) (key : String) (v : JVal) : List (String × JVal) :=
  if present then [(key, v)] else []

/-- serde serialization of a CsvRecord as an ordered list of PascalCase
field-name / value pairs: Example is skipped when none, and each Vec field
is skipped when empty. -/
def serializeRecord (r : CsvRecord) : List (String × JVal) :=
  [("Name", .str r.name), ("Notes", .str r.notes),
   ("URL", .str r.url), ("Level", .num r.level)]
  ++ (match r.example? with | none => [] | some e => [("Example", .str e)])
  ++ optField (!r.platform.isEmpty) "Platform" (.arrStr r.platform)
  ++ optField (!r.type.isEmpty) "Type" (.arrStr r.type)
  ++ optField (!r.os.isEmpty) "OS" (.arrStr r.os)
  ++ optField (!r.language.isEmpty) "Language" (.arrStr r.language)
  ++ optField (!r.category.isEmpty) "Category" (.arrStr r.category)

/-- Lower hex digit character of a value below 16. -/
def hexDigit (n : Nat) : Char := if n < 10 then Char.ofNat (48 + n) else Char.ofNat (87 + n)

/-- serde_json escaping of one character inside a JSON string literal. -/
def escapeJsonChar (c : Char) : String :=
  if c = '"' then "\\\""
  else if c = '\\' then "\\\\"
  else if c = '\n' then "\\n"
  else if c = '\t' then "\\t"
  else if c = '\r' then "\\r"
  else if c.toNat < 32 then
    "\\u00" ++ String.mk [hexDigit (c.toNat / 16), hexDigit (c.toNat % 16)]
  else String.singleton c

/-- A JSON string literal, quotes included. -/
def jsonString (s : String) : String :=
  "\"" ++ String.join (s.data.map escapeJsonChar) ++ "\""

/-- Compact rendering of one JSON value. -/
def renderJVal : JVal → String
  | .str s => jsonString s
  | .num n => toString n
  | .arrStr elems => "[" ++ String.intercalate "," (elems.map jsonString) ++ "]"

/-- Compact rendering of a JSON object from ordered key/value pairs. -/
def renderObj (fields : List (String × JVal)) : String :=
  "\x7b" ++
    String.intercalate "," (fields.map (fun f => jsonString f.1 ++ ":" ++ renderJVal f.2)) ++
  "\x7d"

/-- Compact rendering of a JSON array of strings. -/
def renderStringArray (elems : List String) : String :=
  "[" ++ String.intercalate "," (elems.map jsonString) ++ "]"

/-- Compact rendering of the JSON array of serialized records. -/
def renderRecords (records : List CsvRecord) : String :=
  "[" ++ String.intercalate "," (records.map (fun r => renderObj (serializeRecord r))) ++ "]"

/-- lib.rs success envelope: the object with the single key result. -/
def resultEnvelope (payload : String) : String :=
  "\x7b\"result\":" ++ payload ++ "\x7d"

/-- lib.rs error envelope: the object with the single key error holding the
message string. -/
def errorEnvelope (message : String) : String :=
  "\x7b\"error\":" ++ jsonString message ++ "\x7d"

/-- lib.rs, read_csv command (loadRecords): parse and serialize, wrapping
either outcome in its envelope. -/
def read_csv (resolveDocument : Except String String) (fs : FileSystem)
    (filename : String) : String :=
  match read_csv_file resolveDocument fs filename with
  | .error e => errorEnvelope e.message
  | .ok records => resultEnvelope (renderRecords records)

/-- lib.rs, read_type command (distinctTypes): the HashSet is serialized as
a JSON array; its iteration order is arbitrary in Rust, rendered here in
sorted order as one admissible iteration order. -/
def read_type (resolveDocument : Except String String) (fs : FileSystem)
    (filename : String) : String :=
  match read_type_set resolveDocument fs filename with
  | .error e => errorEnvelope e.message
  | .ok types => resultEnvelope (renderStringArray (types.sort (· ≤ ·)))

/-- lib.rs, csv_list command (listDataFiles): resolver failure and
folder_files failure both become the error envelope. -/
def csv_list (resolveDocument : Except String String)
    (readDir : Except IOError (List DirEntry)) : String :=
  match resolveDocument with
  | .error msg => errorEnvelope msg
  | .ok _ =>
    match folder_files readDir with
    | .error e => errorEnvelope e.message
    | .ok array => resultEnvelope (renderStringArray array)

/-- Kind of the error of a failed parse, none on success. -/
def errorKind? {α : Type} : Except IOError α → Option ErrorKind
  | .error e => some e.kind
  | .ok _ => none

/-- A file system on which every open fails with a permission error. -/
def c7Fs : FileSystem := fun _ => .error ⟨.permissionDenied, "permission denied (os error 13)"⟩

/-- A file system on which every open fails with a not-found error. -/
def c7NotFoundFs : FileSystem := fun _ => .error ⟨.notFound, "No such file or directory (os error 2)"⟩

/-- A CSV file whose second row has the out-of-range Level value 300. -/
def c2File : CsvFile :=
  ⟨["Name", "Notes", "URL", "Level"],
   [["good", "n", "u", "3"], ["bad", "n", "u", "300"]]⟩

/-- A file system holding c2File under root/data.csv. -/
def c2Fs : FileSystem :=
  fun p => if p = "root/data.csv" then .ok c2File else .error ⟨.notFound, "nf"⟩

/-- A CSV file with Type cells A,B and B,C. -/
def c3File : CsvFile :=
  ⟨["Name", "Notes", "URL", "Level", "Type"],
   [["r1", "n", "u", "1", "A,B"], ["r2", "n", "u", "2", "B,C"]]⟩

/-- A file system holding c3File under root/data.csv. -/
def c3Fs : FileSystem :=
  fun p => if p = "root/data.csv" then .ok c3File else .error ⟨.notFound, "nf"⟩

/-- The record decoded from the first row of c3File. -/
def c3Record1 : CsvRecord :=
  ⟨"r1", "n", "u", 1, none, [], ["A", "B"], [], [], []⟩

/-- The record decoded from the second row of c3File. -/
def c3Record2 : CsvRecord :=
  ⟨"r2", "n", "u", 2, none, [], ["B", "C"], [], [], []⟩

/-- The two records of c3File. -/
def c3Records : List CsvRecord := [c3Record1, c3Record2]

/-- A directory listing with two iteration failures modes present: one
entry erroring, one entry with a non-textual name, three valid names. -/
def c5Entries : List DirEntry :=
  [.ok (some "b.csv"), .ok (some "A.csv"), .ok none,
   .error ⟨.other, "stat failed"⟩, .ok (some "a.csv")]

/-- A row with every column of c4Header filled; it has no multi-value
column at all. -/
def c4Header : List String := ["Name", "Notes", "URL", "Level"]

/-- The cells of the c4 witness row. -/
def c4Row : List String := ["a", "b", "c", "7"]

/-- The record decoded from c4Row under c4Header. -/
def c4Record : CsvRecord := ⟨"a", "b", "c", 7, none, [], [], [], [], []⟩

/-- Header with a present Platform column. -/
def c10Header : List String := ["Name", "Notes", "URL", "Level", "Platform"]

/-- A row whose Platform cell is present but empty. -/
def c10Row : List String := ["a", "b", "c", "7", ""]

/-- The record decoded from c10Row: the empty present cell yields the
one-element platform list containing the empty string. -/
def c10Record : CsvRecord := ⟨"a", "b", "c", 7, none, [""], [], [], [], []⟩

/-- A well-formed CSV file shared by the determinism witness. -/
def c8File : CsvFile :=
  ⟨["Name", "Notes", "URL", "Level"], [["n", "t", "u", "3"]]⟩

/-- A file system holding c8File everywhere. -/
def c8Fs1 : FileSystem := fun _ => .ok c8File

/-- A file system holding c8File only under root/data.csv. -/
def c8Fs2 : FileSystem :=
  fun p => if p = "root/data.csv" then .ok c8File else .error ⟨.notFound, "nf"⟩

theorem deserialize_platform_ne_nil (s : String) : deserialize_platform s ≠ [] := by
  intro hcontra
  have hmap := List.map_eq_nil_iff.mp hcontra
  exact rustSplit_ne_nil ',' s.data hmap

theorem columnIndex_eq_none (column : String) (header : List String)
    (h : column ∉ header) : columnIndex column header = none := by
  induction header with
  | nil => rfl
  | cons x rest ih =>
    have hxne : ¬ x = column := by
      intro hx
      subst hx
      exact h (List.mem_cons_self x rest)
    simp only [columnIndex]
    rw [if_neg hxne, ih fun hm => h (List.mem_cons_of_mem _ hm)]
    rfl

theorem multiValueCell_of_not_mem (header row : List String) (column : String)
    (h : column ∉ header) : multiValueCell header row column = [] := by
  simp [multiValueCell, lookupCell, columnIndex_eq_none column header h]

theorem decodeRecord_ok_fields (header row : List String) (r : CsvRecord)
    (hok : decodeRecord header row = .ok r) :
    r.example? = optionalCell header row "Example" ∧
    r.platform = multiValueCell header row "Platform" ∧
    r.type = multiValueCell header row "Type" ∧
    r.os = multiValueCell header row "OS" ∧
    r.language = multiValueCell header row "Language" ∧
    r.category = multiValueCell header row "Category" := by
  unfold decodeRecord at hok
  cases h1 : requiredField header row "Name" with
  | error e => simp [h1] at hok
  | ok v1 =>
  simp only [h1] at hok
  cases h2 : requiredField header row "Notes" with
  | error e => simp [h2] at hok
  | ok v2 =>
  simp only [h2] at hok
  cases h3 : requiredField header row "URL" with
  | error e => simp [h3] at hok
  | ok v3 =>
  simp only [h3] at hok
  cases h4 : requiredField header row "Level" with
  | error e => simp [h4] at hok
  | ok v4 =>
  simp only [h4] at hok
  cases h5 : parseU8 v4 with
  | error e => simp [h5] at hok
  | ok v5 =>
  simp only [h5] at hok
  injection hok with hr
  subst hr
  exact ⟨rfl, rfl, rfl, rfl, rfl, rfl⟩

theorem decodeRows_error_of_mem (header : List String) (rows : List (List String))
    (row : List String) (err : String) (hmem : row ∈ rows)
    (hbad : decodeRecord header row = .error err) :
    ∃ msg, decodeRows header rows = .error msg ∧
      ∃ bad ∈ rows, decodeRecord header bad = .error msg := by
  induction rows with
  | nil => cases hmem
  | cons r rs ih =>
    cases hrec : decodeRecord header r with
    | error e =>
      exact ⟨e, by simp [decodeRows, hrec], r, List.mem_cons_self r rs, hrec⟩
    | ok record =>
      rcases List.mem_cons.mp hmem with heq | hmemtail
      · subst heq; rw [hrec] at hbad; simp at hbad
      · obtain ⟨msg, hrows, bad, hbadmem, hbaderr⟩ := ih hmemtail
        refine ⟨msg, ?_, bad, List.mem_cons_of_mem _ hbadmem, hbaderr⟩
        simp [decodeRows, hrec, hrows]

theorem mem_foldl_insert (l : List String) (acc : Finset String) (x : String) :
    x ∈ l.foldl (fun s t => insert t s) acc ↔ x ∈ acc ∨ x ∈ l := by
  induction l generalizing acc with
  | nil => simp
  | cons a rest ih =>
    simp only [List.foldl_cons, ih, Finset.mem_insert, List.mem_cons]
    tauto

theorem mem_typeSet_foldl (records : List CsvRecord) (acc : Finset String) (x : String) :
    x ∈ records.foldl (fun a record => record.type.foldl (fun s t => insert t s) a) acc ↔
      x ∈ acc ∨ ∃ record ∈ records, x ∈ record.type := by
  induction records generalizing acc with
  | nil => simp
  | cons r rest ih =>
    simp only [List.foldl_cons, ih, mem_foldl_insert, List.mem_cons]
    constructor
    · rintro ((h | h) | ⟨record, hm, hx⟩)
      · exact Or.inl h
      · exact Or.inr ⟨r, Or.inl rfl, h⟩
      · exact Or.inr ⟨record, Or.inr hm, hx⟩
    · rintro (h | ⟨record, hm | hm, hx⟩)
      · exact Or.inl (Or.inl h)
      · subst hm; exact Or.inl (Or.inr hx)
      · exact Or.inr ⟨record, hm, hx⟩

theorem mem_typeSetOfRecords (records : List CsvRecord) (x : String) :
    x ∈ typeSetOfRecords records ↔ ∃ record ∈ records, x ∈ record.type := by
  simpa [typeSetOfRecords] using mem_typeSet_foldl records ∅ x

theorem mem_map_fst_optField (k key : String) (v : JVal) (b : Bool) :
    k ∈ (optField b key v).map Prod.fst ↔ b = true ∧ k = key := by
  cases b <;> simp [optField]

/-- Claim C2: when the opened file contains a row that cannot be decoded
into a CsvRecord, the whole parse fails with an InvalidData error carrying
the decode detail of a row of the file (the first failing one), and no
list of records is returned, in particular not the rows preceding the bad
one. -/
theorem c2_parse_fails_atomically (fs : FileSystem) (path : String) (file : CsvFile)
    (row : List String) (err : String)
    (hpath : path ≠ "") (hopen : fs path = .ok file)
    (hmem : row ∈ file.rows) (hbad : decodeRecord file.header row = .error err) :
    (∃ msg, _parse_csv_file fs path = .error ⟨.invalidData, msg⟩ ∧
      ∃ bad ∈ file.rows, decodeRecord file.header bad = .error msg) ∧
    ∀ records, _parse_csv_file fs path ≠ .ok records := by
  obtain ⟨msg, hrows, hbadrow⟩ :=
    decodeRows_error_of_mem file.header file.rows row err hmem hbad
  constructor
  · exact ⟨msg, by simp [_parse_csv_file, hpath, hopen, hrows], hbadrow⟩
  · intro records hcontra
    simp [_parse_csv_file, hpath, hopen, hrows] at hcontra

/-- Concrete instance of claim C2: a file whose second row has Level 300
fails the whole parse with InvalidData and returns no records. -/
theorem c2_parse_fails_atomically_witness :
    (∃ msg, _parse_csv_file c2Fs "root/data.csv" = .error ⟨.invalidData, msg⟩ ∧
      ∃ bad ∈ c2File.rows, decodeRecord c2File.header bad = .error msg) ∧
    ∀ records, _parse_csv_file c2Fs "root/data.csv" ≠ .ok records :=
  c2_parse_fails_atomically c2Fs "root/data.csv" c2File ["bad", "n", "u", "300"]
    "number too large to fit in target type: 300"
    (by decide) rfl (by decide) rfl

/-- Claim C3: read_type_set first parses the file; a parse error is
returned unchanged, and on success the returned set holds exactly the
union of the type sequences of all records. -/
theorem c3_read_type_set_spec (resolveDocument : Except String String) (fs : FileSystem)
    (filename : String) :
    (∀ e, read_csv_file resolveDocument fs filename = .error e →
      read_type_set resolveDocument fs filename = .error e) ∧
    (∀ records, read_csv_file resolveDocument fs filename = .ok records →
      ∃ typeSet, read_type_set resolveDocument fs filename = .ok typeSet ∧
        ∀ s, s ∈ typeSet ↔ ∃ record ∈ records, s ∈ record.type) := by
  constructor
  · intro e he
    simp [read_type_set, he]
  · intro records hr
    exact ⟨typeSetOfRecords records, by simp [read_type_set, hr],
      fun s => mem_typeSetOfRecords records s⟩

/-- Concrete instance of claim C3: records with type sequences A,B and B,C
yield exactly the set containing A, B and C. -/
theorem c3_read_type_set_spec_witness :
    ∃ typeSet, read_type_set (Except.ok "root") c3Fs "data.csv" = Except.ok typeSet ∧
      "A" ∈ typeSet ∧ "B" ∈ typeSet ∧ "C" ∈ typeSet ∧ "D" ∉ typeSet := by
  obtain ⟨typeSet, hts, hiff⟩ :=
    (c3_read_type_set_spec (Except.ok "root") c3Fs "data.csv").2 c3Records rfl
  refine ⟨typeSet, hts, ?_, ?_, ?_, ?_⟩
  · exact (hiff "A").mpr ⟨c3Record1, by decide, by decide⟩
  · exact (hiff "B").mpr ⟨c3Record1, by decide, by decide⟩
  · exact (hiff "C").mpr ⟨c3Record2, by decide, by decide⟩
  · intro hd
    obtain ⟨record, hm, hx⟩ := (hiff "D").mp hd
    rcases List.mem_cons.mp hm with hone | hm
    · subst hone; revert hx; decide
    · rcases List.mem_cons.mp hm with htwo | hm
      · subst htwo; revert hx; decide
      · cases hm

/-- Claim C5: folder_files fails with the read_dir error passed through
unchanged exactly when the directory cannot be opened; otherwise it
returns the textual names of the immediate entries (silently skipping
failed entries and names that are not valid text) sorted ascending by the
case-insensitive order that folds case character-wise and then compares
codepoint-wise. -/
theorem c5_folder_files_spec (readDir : Except IOError (List DirEntry)) :
    (∀ e, readDir = .error e → folder_files readDir = .error e) ∧
    (∀ entries, readDir = .ok entries →
      ∃ names, folder_files readDir = .ok names ∧
        names.Perm (entries.filterMap (fun entry =>
          match entry with
          | .error _ => none
          | .ok none => none
          | .ok (some n) => some n)) ∧
        List.Sorted (fun a b : String => a.toLower ≤ b.toLower) names) := by
  constructor
  · intro e he
    simp [folder_files, he]
  · intro entries he
    subst he
    refine ⟨_, rfl, List.mergeSort_perm _ _, ?_⟩
    have htrans : ∀ a b c : String,
        lowerLe a b = true → lowerLe b c = true → lowerLe a c = true := by
      intro a b c hab hbc
      exact decide_eq_true (le_trans (of_decide_eq_true hab) (of_decide_eq_true hbc))
    have htotal : ∀ a b : String, (lowerLe a b || lowerLe b a) = true := by
      intro a b
      rcases le_total a.toLower b.toLower with h | h <;> simp [lowerLe, h]
    have hs := List.sorted_mergeSort htrans htotal (entries.filterMap (fun entry =>
      match entry with
      | .error _ => none
      | .ok none => none
      | .ok (some n) => some n))
    exact hs.imp (fun hab => of_decide_eq_true hab)

/-- Concrete instance of claim C5: listing entries b.csv, A.csv, a
non-textual name, a failed entry and a.csv returns the three valid names
sorted case-insensitively. -/
theorem c5_folder_files_spec_witness :
    ∃ names, folder_files (Except.ok c5Entries) = Except.ok names ∧
      names.Perm ["b.csv", "A.csv", "a.csv"] ∧
      List.Sorted (fun a b : String => a.toLower ≤ b.toLower) names :=
  (c5_folder_files_spec (Except.ok c5Entries)).2 c5Entries rfl

/-- Claim C6: with the empty filename, read_csv_file fails with
InvalidInput for every resolver result and every file system, so the
outcome is fixed before any filesystem access happens. -/
theorem c6_empty_filename_invalid_input (resolveDocument : Except String String)
    (fs : FileSystem) :
    read_csv_file resolveDocument fs "" =
      .error ⟨.invalidInput, "Filename cannot be empty"⟩ := by
  simp [read_csv_file, _csv_file_path]

theorem pair_mem_optField (k key : String) (x v : JVal) (b : Bool) :
    (k, x) ∈ optField b key v ↔ b = true ∧ k = key ∧ x = v := by
  cases b <;> simp [optField]

theorem mem_keys_serializeRecord (r : CsvRecord) (k : String) :
    k ∈ (serializeRecord r).map Prod.fst ↔
      k = "Name" ∨ k = "Notes" ∨ k = "URL" ∨ k = "Level" ∨
      (r.example?.isSome = true ∧ k = "Example") ∨
      (r.platform ≠ [] ∧ k = "Platform") ∨
      (r.type ≠ [] ∧ k = "Type") ∨
      (r.os ≠ [] ∧ k = "OS") ∨
      (r.language ≠ [] ∧ k = "Language") ∨
      (r.category ≠ [] ∧ k = "Category") := by
  cases hex : r.example? <;>
    simp [serializeRecord, hex, pair_mem_optField, List.isEmpty_iff,
      Bool.not_eq_true, and_comm, or_assoc]

/-- Claim C4: a multi-value column that is absent from the header decodes
to the empty sequence without error, the serialized record omits every
multi-value field holding the empty sequence as well as an absent Example,
and every emitted key is one of the ten capitalized field names. -/
theorem c4_absent_column_omitted (header row : List String) (r : CsvRecord)
    (hok : decodeRecord header row = .ok r) :
    (∀ column, column ∉ header → multiValueCell header row column = []) ∧
    ("Platform" ∉ header → r.platform = []) ∧
    ("Type" ∉ header → r.type = []) ∧
    ("OS" ∉ header → r.os = []) ∧
    ("Language" ∉ header → r.language = []) ∧
    ("Category" ∉ header → r.category = []) ∧
    (r.platform = [] → "Platform" ∉ (serializeRecord r).map Prod.fst) ∧
    (r.type = [] → "Type" ∉ (serializeRecord r).map Prod.fst) ∧
    (r.os = [] → "OS" ∉ (serializeRecord r).map Prod.fst) ∧
    (r.language = [] → "Language" ∉ (serializeRecord r).map Prod.fst) ∧
    (r.category = [] → "Category" ∉ (serializeRecord r).map Prod.fst) ∧
    (r.example? = none → "Example" ∉ (serializeRecord r).map Prod.fst) ∧
    ∀ k ∈ (serializeRecord r).map Prod.fst,
      k ∈ ["Name", "Notes", "URL", "Level", "Example",
           "Platform", "Type", "OS", "Language", "Category"] := by
  obtain ⟨hex, hpf, htp, hos, hlang, hcat⟩ := decodeRecord_ok_fields header row r hok
  refine ⟨fun column hc => multiValueCell_of_not_mem header row column hc,
    fun hc => hpf ▸ multiValueCell_of_not_mem header row "Platform" hc,
    fun hc => htp ▸ multiValueCell_of_not_mem header row "Type" hc,
    fun hc => hos ▸ multiValueCell_of_not_mem header row "OS" hc,
    fun hc => hlang ▸ multiValueCell_of_not_mem header row "Language" hc,
    fun hc => hcat ▸ multiValueCell_of_not_mem header row "Category" hc,
    ?_, ?_, ?_, ?_, ?_, ?_, ?_⟩
  · intro hemp
    rw [mem_keys_serializeRecord]
    simp [hemp]
  · intro hemp
    rw [mem_keys_serializeRecord]
    simp [hemp]
  · intro hemp
    rw [mem_keys_serializeRecord]
    simp [hemp]
  · intro hemp
    rw [mem_keys_serializeRecord]
    simp [hemp]
  · intro hemp
    rw [mem_keys_serializeRecord]
    simp [hemp]
  · intro hnone
    rw [mem_keys_serializeRecord]
    simp [hnone]
  · intro k hk
    rw [mem_keys_serializeRecord] at hk
    rcases hk with h | h | h | h | ⟨_, h⟩ | ⟨_, h⟩ | ⟨_, h⟩ | ⟨_, h⟩ | ⟨_, h⟩ | ⟨_, h⟩ <;>
      subst h <;> decide

/-- Concrete instance of claim C4: the row decoded under a header without
any multi-value column has an empty platform sequence and its serialized
form has no Platform key. -/
theorem c4_absent_column_omitted_witness :
    c4Record.platform = [] ∧ "Platform" ∉ (serializeRecord c4Record).map Prod.fst := by
  have h := c4_absent_column_omitted c4Header c4Row c4Record rfl
  have hpf : c4Record.platform = [] := h.2.1 (by decide)
  exact ⟨hpf, h.2.2.2.2.2.2.1 hpf⟩

/-- Claim C10: the decoder of a present multi-value cell always returns at
least one element, so a record field decoded from a present cell is
non-empty and its key is never omitted from the serialized record; an
empty multi-value field can only come from an absent column. -/
theorem c10_present_cell_never_omitted (header row : List String) (r : CsvRecord)
    (hok : decodeRecord header row = .ok r) :
    (∀ s, deserialize_platform s ≠ []) ∧
    (∀ cell, lookupCell header row "Platform" = some cell →
      r.platform ≠ [] ∧ "Platform" ∈ (serializeRecord r).map Prod.fst) ∧
    (∀ cell, lookupCell header row "Type" = some cell →
      r.type ≠ [] ∧ "Type" ∈ (serializeRecord r).map Prod.fst) ∧
    (∀ cell, lookupCell header row "OS" = some cell →
      r.os ≠ [] ∧ "OS" ∈ (serializeRecord r).map Prod.fst) ∧
    (∀ cell, lookupCell header row "Language" = some cell →
      r.language ≠ [] ∧ "Language" ∈ (serializeRecord r).map Prod.fst) ∧
    (∀ cell, lookupCell header row "Category" = some cell →
      r.category ≠ [] ∧ "Category" ∈ (serializeRecord r).map Prod.fst) := by
  obtain ⟨hex, hpf, htp, hos, hlang, hcat⟩ := decodeRecord_ok_fields header row r hok
  refine ⟨deserialize_platform_ne_nil, ?_, ?_, ?_, ?_, ?_⟩
  · intro cell hcell
    have hne : r.platform ≠ [] := by
      rw [hpf, multiValueCell, hcell]
      exact deserialize_platform_ne_nil cell
    exact ⟨hne, (mem_keys_serializeRecord r "Platform").mpr (by tauto)⟩
  · intro cell hcell
    have hne : r.type ≠ [] := by
      rw [htp, multiValueCell, hcell]
      exact deserialize_platform_ne_nil cell
    exact ⟨hne, (mem_keys_serializeRecord r "Type").mpr (by tauto)⟩
  · intro cell hcell
    have hne : r.os ≠ [] := by
      rw [hos, multiValueCell, hcell]
      exact deserialize_platform_ne_nil cell
    exact ⟨hne, (mem_keys_serializeRecord r "OS").mpr (by tauto)⟩
  · intro cell hcell
    have hne : r.language ≠ [] := by
      rw [hlang, multiValueCell, hcell]
      exact deserialize_platform_ne_nil cell
    exact ⟨hne, (mem_keys_serializeRecord r "Language").mpr (by tauto)⟩
  · intro cell hcell
    have hne : r.category ≠ [] := by
      rw [hcat, multiValueCell, hcell]
      exact deserialize_platform_ne_nil cell
    exact ⟨hne, (mem_keys_serializeRecord r "Category").mpr (by tauto)⟩

/-- Concrete instance of claim C10: a present but empty Platform cell
decodes to the one-element sequence containing the empty string, so the
Platform key is present in the serialized record. -/
theorem c10_present_cell_never_omitted_witness :
    c10Record.platform ≠ [] ∧ "Platform" ∈ (serializeRecord c10Record).map Prod.fst :=
  (c10_present_cell_never_omitted c10Header c10Row c10Record rfl).2.1 "" rfl

/-- Claim C7 is refuted as stated: a non-empty path whose open fails with
a permission error makes the parse fail with PermissionDenied, not
NotFound, because the open error is passed through unchanged. -/
theorem c7_notfound_counterexample :
    errorKind? (_parse_csv_file c7Fs "root/document/data.csv")
      = some ErrorKind.permissionDenied ∧
    ErrorKind.permissionDenied ≠ ErrorKind.notFound :=
  ⟨rfl, by decide⟩

/-- Claim C7 (amended): for every non-empty path whose open fails, the
parse fails with the underlying open error passed through unchanged; in
particular it is NotFound exactly when the open failure is NotFound. -/
theorem c7_open_error_passthrough (fs : FileSystem) (path : String) (e : IOError)
    (hpath : path ≠ "") (hopen : fs path = .error e) :
    _parse_csv_file fs path = .error e := by
  simp [_parse_csv_file, hpath, hopen]

/-- Concrete instance of amended claim C7: an open failing with NotFound
makes the parse fail with that NotFound error. -/
theorem c7_open_error_passthrough_witness :
    _parse_csv_file c7NotFoundFs "root/document/data.csv"
      = .error ⟨.notFound, "No such file or directory (os error 2)"⟩ :=
  c7_open_error_passthrough c7NotFoundFs "root/document/data.csv"
    ⟨.notFound, "No such file or directory (os error 2)"⟩ (by decide) rfl

/-- Claim C8: the read_csv output is a function of the contents of the
resolved file alone: two file systems agreeing on the resolved path
produce byte-identical JSON output. -/
theorem c8_deterministic_in_file_contents (resolveDocument : Except String String)
    (fs1 fs2 : FileSystem) (filename : String)
    (hsame : ∀ dir, resolveDocument = .ok dir →
      fs1 (joinPath dir filename) = fs2 (joinPath dir filename)) :
    read_csv resolveDocument fs1 filename = read_csv resolveDocument fs2 filename := by
  unfold read_csv read_csv_file _csv_file_path
  by_cases hf : filename = ""
  · simp [hf]
  · cases resolveDocument with
    | error msg => simp [hf]
    | ok dir =>
      have h := hsame dir rfl
      simp [hf, _parse_csv_file, h]

/-- Concrete instance of claim C8: a file system defined everywhere and
one defined only at the resolved path agree there, so the two outputs are
the same JSON string. -/
theorem c8_deterministic_in_file_contents_witness :
    read_csv (Except.ok "root") c8Fs1 "data.csv"
      = read_csv (Except.ok "root") c8Fs2 "data.csv" :=
  c8_deterministic_in_file_contents (Except.ok "root") c8Fs1 c8Fs2 "data.csv"
    (fun dir hdir => by
      injection hdir with hd
      subst hd
      rfl)

/-- Claim C9: each of the three request-boundary commands returns either
the success envelope holding a payload or the error envelope holding a
message string, never anything else. -/
theorem c9_request_boundary_envelopes (resolveDocument : Except String String)
    (fs : FileSystem) (readDir : Except IOError (List DirEntry)) (filename : String) :
    ((∃ payload, read_csv resolveDocument fs filename = resultEnvelope payload) ∨
      (∃ message, read_csv resolveDocument fs filename = errorEnvelope message)) ∧
    ((∃ payload, read_type resolveDocument fs filename = resultEnvelope payload) ∨
      (∃ message, read_type resolveDocument fs filename = errorEnvelope message)) ∧
    ((∃ payload, csv_list resolveDocument readDir = resultEnvelope payload) ∨
      (∃ message, csv_list resolveDocument readDir = errorEnvelope message)) := by
  refine ⟨?_, ?_, ?_⟩
  · unfold read_csv
    cases read_csv_file resolveDocument fs filename with
    | error e => exact Or.inr ⟨e.message, rfl⟩
    | ok records => exact Or.inl ⟨renderRecords records, rfl⟩
  · unfold read_type
    cases read_type_set resolveDocument fs filename with
    | error e => exact Or.inr ⟨e.message, rfl⟩
    | ok types => exact Or.inl ⟨renderStringArray (types.sort (· ≤ ·)), rfl⟩
  · unfold csv_list
    cases resolveDocument with
    | error msg => exact Or.inr ⟨msg, rfl⟩
    | ok dir =>
      cases folder_files readDir with
      | error e => exact Or.inr ⟨e.message, rfl⟩
      | ok array => exact Or.inl ⟨renderStringArray array, rfl⟩

end CsvReader
